import Mathlib

/-!
# Application lifecycle manager: screen snapshot, log relay, bus registration

A shallow embedding of `applications/system-service/application.h`.

* The framebuffer device `/dev/fb0`, the bus and the journal are explicit
  state; every device call is appended to a trace.
* `qCompress` / `qUncompress` and the constants of `mxcfb.h` are parameters.
* A step whose behaviour the language leaves undefined (reading or writing
  through a failed mapping, reading past a buffer, dereferencing a deleted
  object) ends the run with a `Fault`.
* The log handlers return the journal calls they make, each with its priority
  and its two string arguments; `journal` runs the calls.
-/

namespace Oxide

/-! ## Constants of the header -/

/-- The macro `DISPLAYWIDTH`, 1404. -/
def DISPLAYWIDTH : Nat := 1404

/-- The macro `DISPLAYHEIGHT`, 1872. -/
def DISPLAYHEIGHT : Nat := 1872

/-- The macro `TEMP_USE_REMARKABLE_DRAW`, 0x0018. -/
def TEMP_USE_REMARKABLE_DRAW : Nat := 0x0018

/-- The size `sizeof(uint16_t)`. -/
def sizeof_uint16_t : Nat := 2

/-- The macro `DISPLAYSIZE`: `DISPLAYWIDTH * DISPLAYHEIGHT * sizeof(uint16_t)`. -/
def DISPLAYSIZE : Nat := DISPLAYWIDTH * DISPLAYHEIGHT * sizeof_uint16_t

/-- The priority `LOG_ERR` of `<syslog.h>`. -/
def LOG_ERR : Nat := 3

/-- The priority `LOG_INFO` of `<syslog.h>`. -/
def LOG_INFO : Nat := 6

/-- Modelled from the spec: `mxcfb.h` is not among the sources, so the
constants `recallScreen` takes from it are carried as parameters. -/
structure Mxcfb where
  WAVEFORM_MODE_AUTO : Nat
  UPDATE_MODE_FULL : Nat
  EPDC_FLAG_USE_DITHERING_MAX : Nat
  deriving DecidableEq, Repr

/-! ## The framebuffer device -/

/-- The type `struct mxcfb_rect`. -/
structure mxcfb_rect where
  top : Nat
  left : Nat
  width : Nat
  height : Nat
  deriving DecidableEq, Repr

/-- The fields of `struct mxcfb_update_data` that `recallScreen` assigns. -/
structure mxcfb_update_data where
  update_region : mxcfb_rect
  waveform_mode : Nat
  update_mode : Nat
  update_marker : Nat
  temp : Nat
  flags : Nat
  dither_mode : Nat
  deriving DecidableEq, Repr

/-- What `open` returns: a descriptor, or `-1`. -/
inductive Handle
  | fd
  | invalid
  deriving DecidableEq, Repr

/-- What `mmap` returns: the mapped region, or `MAP_FAILED`. -/
inductive Mapping
  | mapped
  | MAP_FAILED
  deriving DecidableEq, Repr

/-- One call on the framebuffer device. -/
inductive FbCall
  | open (h : Handle)
  | mmap (m : Mapping)
  | read (n : Nat)
  | write (n : Nat)
  | MXCFB_SEND_UPDATE (data : mxcfb_update_data)
  | close (h : Handle)
  deriving DecidableEq, Repr

/-- The device node `/dev/fb0`: whether it can be opened, whether it can be
mapped, its memory, and the calls made on it so far. -/
structure Framebuffer where
  opens : Bool
  maps : Bool
  mem : List UInt8
  calls : List FbCall
  deriving DecidableEq, Repr

/-- The steps whose behaviour is undefined. -/
inductive Fault
  | readFailedMapping
  | writeFailedMapping
  | readPastBuffer
  | useAfterDelete
  deriving DecidableEq, Repr

/-- The call `open("/dev/fb0", O_RDWR)`. -/
def Framebuffer.open (fb : Framebuffer) : Handle × Framebuffer :=
  let h := if fb.opens then Handle.fd else Handle.invalid
  (h, { fb with calls := fb.calls ++ [FbCall.open h] })

/-- The call `mmap(0, len, PROT_READ | PROT_WRITE, MAP_SHARED, h, 0)`: fails on a bad
descriptor, on a device that refuses the mapping, and on a length beyond the
device memory. -/
def Framebuffer.mmap (fb : Framebuffer) (len : Nat) (h : Handle) : Mapping × Framebuffer :=
  let m := if h = Handle.fd ∧ fb.maps = true ∧ len ≤ fb.mem.length then Mapping.mapped
    else Mapping.MAP_FAILED
  (m, { fb with calls := fb.calls ++ [FbCall.mmap m] })

/-- The constructor `QByteArray(frameBuffer, n)`: a copy of the first `n` bytes of the mapping. -/
def Framebuffer.readMapping (fb : Framebuffer) (m : Mapping) (n : Nat) :
    Except Fault (List UInt8 × Framebuffer) :=
  match m with
  | Mapping.MAP_FAILED => Except.error Fault.readFailedMapping
  | Mapping.mapped => Except.ok (fb.mem.take n, { fb with calls := fb.calls ++ [FbCall.read n] })

/-- The bytes behind `QByteArray::data()`: the contents, and the terminating
NUL the array keeps after them. -/
def QByteArray_data (contents : List UInt8) : List UInt8 := contents ++ [0]

/-- The call `memcpy(frameBuffer, src, n)`, `src` being the bytes that can be read
at the source: the first `n` of them replace the first `n` bytes of the
mapping, which is shared with the device. -/
def Framebuffer.memcpy (fb : Framebuffer) (m : Mapping) (src : List UInt8) (n : Nat) :
    Except Fault Framebuffer :=
  match m with
  | Mapping.MAP_FAILED => Except.error Fault.writeFailedMapping
  | Mapping.mapped =>
    if src.length < n then Except.error Fault.readPastBuffer
    else Except.ok { fb with mem := src.take n ++ fb.mem.drop n,
                             calls := fb.calls ++ [FbCall.write n] }

/-- The call `ioctl(h, MXCFB_SEND_UPDATE, &update_data)`. -/
def Framebuffer.ioctl_SEND_UPDATE (fb : Framebuffer) (_h : Handle) (data : mxcfb_update_data) :
    Framebuffer :=
  { fb with calls := fb.calls ++ [FbCall.MXCFB_SEND_UPDATE data] }

/-- The call `close(h)`. -/
def Framebuffer.close (fb : Framebuffer) (h : Handle) : Framebuffer :=
  { fb with calls := fb.calls ++ [FbCall.close h] }

/-! ## The application object -/

/-- The member `QByteArray* screenCapture`: null, pointing to a live array,
or still pointing to an array that has been deleted. -/
inductive ScreenCapture
  | nullptr
  | live (data : List UInt8)
  | deleted
  deriving DecidableEq, Repr

/-- The part of `QProcess` the modelled members read. -/
structure QProcess where
  processId : Int
  running : Bool
  deriving DecidableEq, Repr

/-- The members of `Application` the modelled functions use. -/
structure Application where
  m_path : String
  m_name : List Char
  m_process : QProcess
  m_backgrounded : Bool
  screenCapture : ScreenCapture
  deriving DecidableEq, Repr

/-- The member function `Application::saveScreen`. -/
def saveScreen (qCompress : List UInt8 → List UInt8) (app : Application) (fb : Framebuffer) :
    Except Fault (Application × Framebuffer) :=
  if app.screenCapture ≠ ScreenCapture.nullptr then
    Except.ok (app, fb)
  else
    let (frameBufferHandle, fb1) := fb.open
    let (frameBuffer, fb2) := fb1.mmap DISPLAYSIZE frameBufferHandle
    match fb2.readMapping frameBuffer DISPLAYSIZE with
    | Except.error e => Except.error e
    | Except.ok (bytes, fb3) =>
      let compressedData := qCompress bytes
      let fb4 := fb3.close frameBufferHandle
      Except.ok ({ app with screenCapture := ScreenCapture.live compressedData }, fb4)

/-- The `update_data` that `recallScreen` fills in. -/
def recallUpdateData (k : Mxcfb) : mxcfb_update_data :=
  { update_region := { top := 0, left := 0, width := DISPLAYWIDTH, height := DISPLAYHEIGHT },
    update_marker := 0,
    waveform_mode := k.WAVEFORM_MODE_AUTO,
    update_mode := k.UPDATE_MODE_FULL,
    dither_mode := k.EPDC_FLAG_USE_DITHERING_MAX,
    temp := TEMP_USE_REMARKABLE_DRAW,
    flags := 0 }

/-- The member function `Application::recallScreen`. -/
def recallScreen (k : Mxcfb) (qUncompress : List UInt8 → List UInt8) (app : Application)
    (fb : Framebuffer) : Except Fault (Application × Framebuffer) :=
  match app.screenCapture with
  | ScreenCapture.nullptr => Except.ok (app, fb)
  | ScreenCapture.deleted => Except.error Fault.useAfterDelete
  | ScreenCapture.live data =>
    let uncompressedData := qUncompress data
    if uncompressedData.length = 0 then
      -- `delete screenCapture; return;` the member keeps its value
      Except.ok ({ app with screenCapture := ScreenCapture.deleted }, fb)
    else
      let (frameBufferHandle, fb1) := fb.open
      let (frameBuffer, fb2) := fb1.mmap DISPLAYSIZE frameBufferHandle
      match fb2.memcpy frameBuffer (QByteArray_data uncompressedData) DISPLAYSIZE with
      | Except.error e => Except.error e
      | Except.ok fb3 =>
        let fb4 := fb3.ioctl_SEND_UPDATE frameBufferHandle (recallUpdateData k)
        let fb5 := fb4.close frameBufferHandle
        Except.ok ({ app with screenCapture := ScreenCapture.nullptr }, fb5)

/-! ## The log relay -/

/-- The NUL character. -/
def NUL : Char := Char.ofNat 0

/-- The line feed character. -/
def LF : Char := Char.ofNat 10

/-- The carriage return character. -/
def CR : Char := Char.ofNat 13

/-- A `const char*` read as a C string: the characters before the first NUL. -/
def cstr (s : List Char) : List Char := s.takeWhile (fun c => c != NUL)

/-- The conversion `QString(const QByteArray&)`: the conversion stops at the first 0 character.
The bytes are taken as the characters they decode to. -/
def QString_ofByteArray (ba : List Char) : List Char := cstr ba

/-- The function `QString::number(qint64)`: the decimal digits, with a sign when negative. -/
def QString_number : Int → List Char
  | Int.ofNat m => Nat.toDigits 10 m
  | Int.negSucc m => '-' :: Nat.toDigits 10 (m + 1)

/-- The pattern `QRegExp("[\r\n]")` matched against one character. -/
def isLineBreak (c : Char) : Bool := c == CR || c == LF

/-- The call `QString::split(QRegExp("[\r\n]"), QString::SkipEmptyParts)`: `cur` is the
text since the last match; at a match, and at the end, it is appended unless
it is empty. -/
def splitSkipEmptyParts : List Char → List Char → List (List Char)
  | [], cur => if cur.isEmpty then [] else [cur]
  | c :: cs, cur =>
    if isLineBreak c then
      if cur.isEmpty then splitSkipEmptyParts cs [] else cur :: splitSkipEmptyParts cs []
    else splitSkipEmptyParts cs (cur ++ [c])

/-- The name and process id between brackets, as
`("[" + name() + " " + QString::number(m_process->processId()) + "]").toUtf8()`
builds it, a temporary array. -/
def logTag (app : Application) : List Char :=
  ['['] ++ app.m_name ++ [' '] ++ QString_number app.m_process.processId ++ [']']

/-- A `const char*` argument of a journal call: it points to bytes that live
through the call, or into an array destroyed before the call, which held
`written`. -/
inductive CharPtr
  | live (bytes : List Char)
  | destroyed (written : List Char)
  deriving DecidableEq, Repr

/-- One call `sd_journal_print(priority, "%s %s", a, b)`. -/
structure JournalCall where
  priority : Nat
  a : CharPtr
  b : CharPtr
  deriving DecidableEq, Repr

/-- What `%s` reads at a pointer: the C string there; the read of a destroyed
array is undefined. -/
def CharPtr.read : CharPtr → Except Fault (List Char)
  | CharPtr.live bytes => Except.ok (cstr bytes)
  | CharPtr.destroyed _ => Except.error Fault.useAfterDelete

/-- The call `sd_journal_print(priority, "%s %s", a, b)` run: the priority and the
formatted line handed to the journal. -/
def sd_journal_print (c : JournalCall) : Except Fault (Nat × List Char) :=
  match c.a.read with
  | Except.error e => Except.error e
  | Except.ok a =>
    match c.b.read with
    | Except.error e => Except.error e
    | Except.ok b => Except.ok (c.priority, a ++ [' '] ++ b)

/-- The journal entries of a sequence of calls, run in order. -/
def journal : List JournalCall → Except Fault (List (Nat × List Char))
  | [] => Except.ok []
  | c :: cs =>
    match sd_journal_print c with
    | Except.error e => Except.error e
    | Except.ok entry =>
      match journal cs with
      | Except.error e => Except.error e
      | Except.ok entries => Except.ok (entry :: entries)

/-- The loop shared by both handlers: for every line of the split that is not
empty, one journal call at the given priority, with `prefix` and with
`(const char*)line.toUtf8()`, a temporary that lives through the call. -/
def relayLines (priority : Nat) (tag : CharPtr) (lines : List (List Char)) : List JournalCall :=
  lines.filterMap fun line =>
    if !line.isEmpty then
      some { priority := priority, a := tag, b := CharPtr.live line }
    else none

/-- The slot `Application::readyReadStandardError`; `buffered` is what
`m_process->readAllStandardError()` returns. The result is the sequence of
journal calls. `prefix` points into the temporary array of `logTag`, destroyed
at the end of the declaration. -/
def readyReadStandardError (app : Application) (buffered : List Char) : List JournalCall :=
  let tag := CharPtr.destroyed (logTag app)
  let error := QString_ofByteArray buffered
  relayLines LOG_INFO tag (splitSkipEmptyParts error [])

/-- The slot `Application::readyReadStandardOutput`; `buffered` is what
`m_process->readAllStandardOutput()` returns. -/
def readyReadStandardOutput (app : Application) (buffered : List Char) : List JournalCall :=
  let tag := CharPtr.destroyed (logTag app)
  let output := QString_ofByteArray buffered
  relayLines LOG_ERR tag (splitSkipEmptyParts output [])

/-- The maximal runs of characters that are neither CR nor LF, in the spec's
words: split at every line boundary, discard the empty lines. -/
def maximalRuns (text : List Char) : List (List Char) :=
  (text.splitOnP isLineBreak).filter fun l => !l.isEmpty

/-- The message `[N P] L` of the spec. -/
def logLine (app : Application) (line : List Char) : List Char :=
  ['['] ++ app.m_name ++ [' '] ++ QString_number app.m_process.processId ++ [']', ' '] ++ line

/-! ## The bus registration -/

/-- The system bus, `QDBusConnection::systemBus()`, an external collaborator
offering register and unregister by path: the list of registrations, a path
with the object registered there, and the paths `unregisterObject` was called
with. -/
structure Bus where
  objects : List (String × Nat)
  unregisterCalls : List String
  deriving DecidableEq, Repr

/-- The call `bus.objectRegisteredAt(path)`: the object registered at `path`, if any. -/
def Bus.objectRegisteredAt (bus : Bus) (path : String) : Option Nat :=
  (bus.objects.find? fun r => r.1 == path).map fun r => r.2

/-- The call `bus.unregisterObject(path)`. -/
def Bus.unregisterObject (bus : Bus) (path : String) : Bus :=
  { objects := bus.objects.filter fun r => !(r.1 == path),
    unregisterCalls := bus.unregisterCalls ++ [path] }

/-- The member function `Application::unregisterPath`. -/
def unregisterPath (app : Application) (bus : Bus) : Application × Bus :=
  if bus.objectRegisteredAt app.m_path ≠ none then
    (app, bus.unregisterObject app.m_path)
  else (app, bus)

/-! ## Concrete inputs -/

/-- Sample values for the constants of the device header. -/
def sampleMxcfb : Mxcfb :=
  { WAVEFORM_MODE_AUTO := 257, UPDATE_MODE_FULL := 1, EPDC_FLAG_USE_DITHERING_MAX := 0x300f30 }

/-- An available device whose panel holds the byte `b` everywhere. -/
def panelOf (b : UInt8) : Framebuffer :=
  { opens := true, maps := true, mem := List.replicate DISPLAYSIZE b, calls := [] }

/-- A device that cannot be opened. -/
def absentPanel : Framebuffer :=
  { opens := false, maps := false, mem := [], calls := [] }

/-- The application of the spec's scenario, running as process 42. -/
def reader (capture : ScreenCapture) : Application :=
  { m_path := "/codes/eeems/oxide1/apps/reader", m_name := "Reader".toList,
    m_process := { processId := 42, running := true },
    m_backgrounded := false, screenCapture := capture }

/-! ## Shared lemmas -/

theorem DISPLAYSIZE_eq : DISPLAYSIZE = 5256576 := by decide

theorem DISPLAYSIZE_pos : 0 < DISPLAYSIZE := by decide

/-- With no capture held and an available device, `saveScreen` returns, and
stores the compressed panel. -/
theorem saveScreen_fresh (qCompress : List UInt8 → List UInt8) (app : Application)
    (fb : Framebuffer) (hnull : app.screenCapture = ScreenCapture.nullptr)
    (hopen : fb.opens = true) (hmap : fb.maps = true) (hlen : DISPLAYSIZE ≤ fb.mem.length) :
    saveScreen qCompress app fb = Except.ok
      ({ app with screenCapture := ScreenCapture.live (qCompress (fb.mem.take DISPLAYSIZE)) },
       { fb with calls := fb.calls ++ [FbCall.open Handle.fd, FbCall.mmap Mapping.mapped,
           FbCall.read DISPLAYSIZE, FbCall.close Handle.fd] }) := by
  simp [saveScreen, hnull, Framebuffer.open, Framebuffer.mmap, Framebuffer.readMapping,
    Framebuffer.close, hopen, hmap, hlen]

/-- With a non-null capture pointer `saveScreen` returns at once. -/
theorem saveScreen_nonnull (qCompress : List UInt8 → List UInt8) (app : Application)
    (fb : Framebuffer) (h : app.screenCapture ≠ ScreenCapture.nullptr) :
    saveScreen qCompress app fb = Except.ok (app, fb) := by
  simp [saveScreen, h]

/-- With the device unavailable, `saveScreen` reads through the failed mapping. -/
theorem saveScreen_unavailable (qCompress : List UInt8 → List UInt8) (app : Application)
    (fb : Framebuffer) (hnull : app.screenCapture = ScreenCapture.nullptr)
    (h : fb.opens = false ∨ fb.maps = false) :
    saveScreen qCompress app fb = Except.error Fault.readFailedMapping := by
  rcases h with h | h <;>
    simp [saveScreen, hnull, Framebuffer.open, Framebuffer.mmap, Framebuffer.readMapping, h]

/-- The first `n` bytes behind `data()` are the first `n` bytes of the
contents when the contents have that many. -/
theorem take_QByteArray_data (contents : List UInt8) (n : Nat) (h : n ≤ contents.length) :
    (QByteArray_data contents).take n = contents.take n :=
  List.take_append_of_le_length h

/-- The path of `recallScreen` on which the capture is written back. -/
theorem recallScreen_live (k : Mxcfb) (qUncompress : List UInt8 → List UInt8)
    (app : Application) (fb : Framebuffer) (data : List UInt8)
    (hlive : app.screenCapture = ScreenCapture.live data)
    (hsize : DISPLAYSIZE ≤ (qUncompress data).length + 1)
    (hopen : fb.opens = true) (hmap : fb.maps = true) (hlen : DISPLAYSIZE ≤ fb.mem.length) :
    recallScreen k qUncompress app fb = Except.ok
      ({ app with screenCapture := ScreenCapture.nullptr },
       { fb with mem := (QByteArray_data (qUncompress data)).take DISPLAYSIZE
                   ++ fb.mem.drop DISPLAYSIZE,
                 calls := fb.calls ++ [FbCall.open Handle.fd, FbCall.mmap Mapping.mapped,
                   FbCall.write DISPLAYSIZE, FbCall.MXCFB_SEND_UPDATE (recallUpdateData k),
                   FbCall.close Handle.fd] }) := by
  have hne : (qUncompress data).length ≠ 0 := by
    have := DISPLAYSIZE_eq
    omega
  have hne2 : ¬ qUncompress data = [] := fun h => hne (by rw [h]; rfl)
  have hdata : (QByteArray_data (qUncompress data)).length = (qUncompress data).length + 1 := by
    simp [QByteArray_data]
  have hnlt : ¬ (QByteArray_data (qUncompress data)).length < DISPLAYSIZE := by omega
  simp [recallScreen, hnlt, hlive, hne2, Framebuffer.open, Framebuffer.mmap, Framebuffer.memcpy,
    Framebuffer.ioctl_SEND_UPDATE, Framebuffer.close, hopen, hmap, hlen]

/-- The path of `recallScreen` on which the device cannot be opened or mapped:
the copy writes through the failed mapping. -/
theorem recallScreen_unavailable (k : Mxcfb) (qUncompress : List UInt8 → List UInt8)
    (app : Application) (fb : Framebuffer) (data : List UInt8)
    (hlive : app.screenCapture = ScreenCapture.live data)
    (hne : (qUncompress data).length ≠ 0)
    (h : fb.opens = false ∨ fb.maps = false) :
    recallScreen k qUncompress app fb = Except.error Fault.writeFailedMapping := by
  have hne2 : ¬ qUncompress data = [] := fun e => hne (by rw [e]; rfl)
  rcases h with h | h <;>
    simp [recallScreen, hlive, hne2, Framebuffer.open, Framebuffer.mmap, Framebuffer.memcpy, h]

/-- The path of `recallScreen` taken when decompression gives nothing. -/
theorem recallScreen_empty (k : Mxcfb) (qUncompress : List UInt8 → List UInt8)
    (app : Application) (fb : Framebuffer) (data : List UInt8)
    (hlive : app.screenCapture = ScreenCapture.live data)
    (hsize : (qUncompress data).length = 0) :
    recallScreen k qUncompress app fb =
      Except.ok ({ app with screenCapture := ScreenCapture.deleted }, fb) := by
  simp [recallScreen, hlive, List.length_eq_zero.mp hsize]

/-- The path of `recallScreen` on which the decompressed data is not empty and
ends, terminating NUL included, before the panel does: the copy reads past it. -/
theorem recallScreen_short (k : Mxcfb) (qUncompress : List UInt8 → List UInt8)
    (app : Application) (fb : Framebuffer) (data : List UInt8)
    (hlive : app.screenCapture = ScreenCapture.live data)
    (hne : (qUncompress data).length ≠ 0)
    (hlt : (qUncompress data).length + 1 < DISPLAYSIZE)
    (hopen : fb.opens = true) (hmap : fb.maps = true) (hlen : DISPLAYSIZE ≤ fb.mem.length) :
    recallScreen k qUncompress app fb = Except.error Fault.readPastBuffer := by
  have hne2 : ¬ qUncompress data = [] := fun h => hne (by rw [h]; rfl)
  have hdata : (QByteArray_data (qUncompress data)).length < DISPLAYSIZE := by
    simpa [QByteArray_data] using hlt
  simp [recallScreen, hlive, hne2, Framebuffer.open, Framebuffer.mmap, Framebuffer.memcpy,
    hopen, hmap, hlen, hdata]

theorem replicate_covers (b : UInt8) :
    DISPLAYSIZE ≤ (id (List.replicate DISPLAYSIZE b)).length + 1 := by
  have h : (id (List.replicate DISPLAYSIZE b)).length = DISPLAYSIZE := List.length_replicate _ _
  rw [h]; exact Nat.le_succ _

theorem panelOf_length (b : UInt8) : (panelOf b).mem.length = DISPLAYSIZE := by
  simp [panelOf]

/-! ## Screen capture and restore -/

/-- C1: with an available device showing `F`, exactly `DISPLAYSIZE` bytes, no
capture held and a lossless compressor, `saveScreen` followed by `recallScreen`
on whatever panel contents the device then has leaves the panel equal to `F`
and the capture pointer null. -/
theorem saveScreen_recallScreen_roundtrip (k : Mxcfb)
    (qCompress qUncompress : List UInt8 → List UInt8) (app : Application)
    (fb later : Framebuffer) (F : List UInt8)
    (hF : F.length = DISPLAYSIZE) (hmem : fb.mem = F)
    (hopen : fb.opens = true) (hmap : fb.maps = true)
    (hnull : app.screenCapture = ScreenCapture.nullptr)
    (hlossless : ∀ x, qUncompress (qCompress x) = x)
    (hopen2 : later.opens = true) (hmap2 : later.maps = true)
    (hlen2 : later.mem.length = DISPLAYSIZE) :
    ∃ app1 fb1 app2 fb2,
      saveScreen qCompress app fb = Except.ok (app1, fb1) ∧
      recallScreen k qUncompress app1 later = Except.ok (app2, fb2) ∧
      fb2.mem = F ∧ app2.screenCapture = ScreenCapture.nullptr := by
  have hlen : DISPLAYSIZE ≤ fb.mem.length := by rw [hmem, hF]
  have htake : fb.mem.take DISPLAYSIZE = F := by
    rw [hmem]; exact List.take_of_length_le (le_of_eq hF)
  refine ⟨_, _, _, _, saveScreen_fresh qCompress app fb hnull hopen hmap hlen,
    recallScreen_live k qUncompress _ later _ rfl ?_ hopen2 hmap2 (le_of_eq hlen2.symm), ?_, rfl⟩
  · rw [hlossless, htake, hF]; exact Nat.le_succ _
  · show (QByteArray_data (qUncompress (qCompress (fb.mem.take DISPLAYSIZE)))).take DISPLAYSIZE
      ++ later.mem.drop DISPLAYSIZE = F
    rw [hlossless, htake, take_QByteArray_data F DISPLAYSIZE (le_of_eq hF.symm),
      List.take_of_length_le (le_of_eq hF),
      List.drop_of_length_le (le_of_eq hlen2), List.append_nil]

/-- C1 at a panel of sevens, restored over a panel of zeros. -/
theorem saveScreen_recallScreen_roundtrip_witness :
    (List.replicate DISPLAYSIZE (7 : UInt8)).length = DISPLAYSIZE ∧
    ∃ app1 fb1 app2 fb2,
      saveScreen id (reader ScreenCapture.nullptr) (panelOf 7) = Except.ok (app1, fb1) ∧
      recallScreen sampleMxcfb id app1 (panelOf 0) = Except.ok (app2, fb2) ∧
      fb2.mem = List.replicate DISPLAYSIZE 7 ∧ app2.screenCapture = ScreenCapture.nullptr :=
  ⟨List.length_replicate _ _,
   saveScreen_recallScreen_roundtrip sampleMxcfb id id (reader ScreenCapture.nullptr)
    (panelOf 7) (panelOf 0) (List.replicate DISPLAYSIZE 7) (List.length_replicate _ _)
    rfl rfl rfl rfl (fun _ => rfl) rfl rfl (panelOf_length 0)⟩

/-- C2 as stated fails: a capture that decompresses to one byte more than the
panel is written to the device and followed by a refresh; one that
decompresses to a single byte is not taken as corrupt either, the copy reads
past it. -/
theorem recallScreen_length_mismatch_writes :
    (id (List.replicate (DISPLAYSIZE + 1) (1 : UInt8))).length ≠ DISPLAYSIZE ∧
    (∃ app2 fb2,
      recallScreen sampleMxcfb id
        (reader (ScreenCapture.live (List.replicate (DISPLAYSIZE + 1) 1))) (panelOf 0)
        = Except.ok (app2, fb2) ∧
      fb2.mem ≠ (panelOf 0).mem ∧
      FbCall.MXCFB_SEND_UPDATE (recallUpdateData sampleMxcfb) ∈ fb2.calls) ∧
    (id ([1] : List UInt8)).length ≠ DISPLAYSIZE ∧
    recallScreen sampleMxcfb id (reader (ScreenCapture.live [1])) (panelOf 0)
      = Except.error Fault.readPastBuffer := by
  have hD : DISPLAYSIZE ≠ 0 := Nat.pos_iff_ne_zero.mp DISPLAYSIZE_pos
  have hlen1 : (id (List.replicate (DISPLAYSIZE + 1) (1 : UInt8))).length = DISPLAYSIZE + 1 :=
    List.length_replicate _ _
  have hmem : List.take DISPLAYSIZE
        (QByteArray_data (id (List.replicate (DISPLAYSIZE + 1) (1 : UInt8))))
      ++ List.drop DISPLAYSIZE (panelOf 0).mem ≠ (panelOf 0).mem := by
    rw [take_QByteArray_data _ _ (by rw [hlen1]; exact Nat.le_succ DISPLAYSIZE)]
    show List.take DISPLAYSIZE (List.replicate (DISPLAYSIZE + 1) (1 : UInt8))
      ++ List.drop DISPLAYSIZE (List.replicate DISPLAYSIZE (0 : UInt8))
      ≠ List.replicate DISPLAYSIZE 0
    rw [List.take_replicate, List.drop_of_length_le (le_of_eq (List.length_replicate _ _)),
      List.append_nil, Nat.min_eq_left (Nat.le_succ DISPLAYSIZE)]
    intro hh
    exact absurd ((List.replicate_right_inj hD).mp hh) (by decide)
  refine ⟨?_, ⟨_, _, recallScreen_live sampleMxcfb id _ (panelOf 0) _ rfl ?_ rfl rfl
    (le_of_eq (panelOf_length 0).symm), hmem, ?_⟩, ?_, ?_⟩
  · rw [hlen1]; exact Nat.succ_ne_self _
  · rw [hlen1]; omega
  · simp
  · intro h
    have h1 : (1 : Nat) = DISPLAYSIZE := h
    rw [DISPLAYSIZE_eq] at h1
    omega
  · have hlt : (1 : Nat) + 1 < DISPLAYSIZE := by rw [DISPLAYSIZE_eq]; omega
    exact recallScreen_short sampleMxcfb id _ (panelOf 0) [1] rfl (Nat.succ_ne_zero 0) hlt rfl rfl
      (le_of_eq (panelOf_length 0).symm)

/-- C2 amended: a held capture whose decompression is empty is taken as
corrupt; `recallScreen` returns with the device untouched: same memory, no
call made, so no refresh. -/
theorem recallScreen_corrupt_no_write (k : Mxcfb) (qUncompress : List UInt8 → List UInt8)
    (app : Application) (fb : Framebuffer) (data : List UInt8)
    (hlive : app.screenCapture = ScreenCapture.live data)
    (hempty : (qUncompress data).length = 0) :
    ∃ app2 fb2, recallScreen k qUncompress app fb = Except.ok (app2, fb2) ∧
      fb2.mem = fb.mem ∧ fb2.calls = fb.calls :=
  ⟨_, _, recallScreen_empty k qUncompress app fb data hlive hempty, rfl, rfl⟩

/-- C2 amended, at an empty capture. -/
theorem recallScreen_corrupt_no_write_witness :
    (id ([] : List UInt8)).length = 0 ∧
    ∃ app2 fb2, recallScreen sampleMxcfb id (reader (ScreenCapture.live [])) (panelOf 0)
        = Except.ok (app2, fb2) ∧
      fb2.mem = (panelOf 0).mem ∧ fb2.calls = (panelOf 0).calls :=
  ⟨rfl, recallScreen_corrupt_no_write sampleMxcfb id (reader (ScreenCapture.live []))
    (panelOf 0) [] rfl rfl⟩

/-- C3 fails on the corrupt path: after `recallScreen` on a capture that
decompresses to nothing the pointer is not null; the next `saveScreen` returns
early without a capture, and the next `recallScreen` dereferences the deleted
array. -/
theorem recallScreen_corrupt_keeps_pointer :
    recallScreen sampleMxcfb id (reader (ScreenCapture.live [])) (panelOf 0)
      = Except.ok (reader ScreenCapture.deleted, panelOf 0) ∧
    (reader ScreenCapture.deleted).screenCapture ≠ ScreenCapture.nullptr ∧
    saveScreen id (reader ScreenCapture.deleted) (panelOf 7)
      = Except.ok (reader ScreenCapture.deleted, panelOf 7) ∧
    recallScreen sampleMxcfb id (reader ScreenCapture.deleted) (panelOf 0)
      = Except.error Fault.useAfterDelete :=
  ⟨recallScreen_empty sampleMxcfb id _ _ [] rfl rfl, by decide,
   saveScreen_nonnull id _ _ (by decide), rfl⟩

/-- C4: with the capture pointer set, `saveScreen` returns the application and
the device as they were, no call made; so whenever a first `saveScreen`
returns, a second one on any device state changes nothing. -/
theorem saveScreen_idempotent (qCompress : List UInt8 → List UInt8) (app : Application)
    (fb later : Framebuffer) :
    (app.screenCapture ≠ ScreenCapture.nullptr →
      saveScreen qCompress app fb = Except.ok (app, fb)) ∧
    (∀ app1 fb1, saveScreen qCompress app fb = Except.ok (app1, fb1) →
      app1.screenCapture ≠ ScreenCapture.nullptr ∧
      saveScreen qCompress app1 later = Except.ok (app1, later)) := by
  refine ⟨saveScreen_nonnull qCompress app fb, ?_⟩
  intro app1 fb1 h
  have hne : app1.screenCapture ≠ ScreenCapture.nullptr := by
    by_cases hn : app.screenCapture = ScreenCapture.nullptr
    · cases hm : (fb.open.2.mmap DISPLAYSIZE fb.open.1).1 with
      | MAP_FAILED =>
        simp [saveScreen, hn, Framebuffer.readMapping, hm] at h
      | mapped =>
        simp [saveScreen, hn, Framebuffer.readMapping, hm] at h
        rw [← h.1]; simp
    · rw [saveScreen_nonnull qCompress app fb hn] at h
      simp at h
      rw [← h.1]; exact hn
  exact ⟨hne, saveScreen_nonnull qCompress app1 later hne⟩

/-- C4 at a first capture of a panel of sevens and a second call on a panel of
zeros: the stored capture is still the panel of sevens. -/
theorem saveScreen_idempotent_witness :
    saveScreen id (reader ScreenCapture.nullptr) (panelOf 7)
      = Except.ok (reader (ScreenCapture.live (List.replicate DISPLAYSIZE 7)),
          { panelOf 7 with calls := [FbCall.open Handle.fd, FbCall.mmap Mapping.mapped,
              FbCall.read DISPLAYSIZE, FbCall.close Handle.fd] }) ∧
    saveScreen id (reader (ScreenCapture.live (List.replicate DISPLAYSIZE 7))) (panelOf 0)
      = Except.ok (reader (ScreenCapture.live (List.replicate DISPLAYSIZE 7)), panelOf 0) := by
  have h1 : saveScreen id (reader ScreenCapture.nullptr) (panelOf 7)
      = Except.ok (reader (ScreenCapture.live (List.replicate DISPLAYSIZE 7)),
          { panelOf 7 with calls := [FbCall.open Handle.fd, FbCall.mmap Mapping.mapped,
              FbCall.read DISPLAYSIZE, FbCall.close Handle.fd] }) := by
    rw [saveScreen_fresh id _ _ rfl rfl rfl (le_of_eq (panelOf_length 7).symm)]
    simp [reader, panelOf]
  exact ⟨h1, ((saveScreen_idempotent id (reader ScreenCapture.nullptr) (panelOf 7)
    (panelOf 0)).2 _ _ h1).2⟩

/-- C5: with no capture held `recallScreen` returns the application and the
device as they were: nothing opened, written or refreshed. -/
theorem recallScreen_no_capture (k : Mxcfb) (qUncompress : List UInt8 → List UInt8)
    (app : Application) (fb : Framebuffer)
    (hnull : app.screenCapture = ScreenCapture.nullptr) :
    recallScreen k qUncompress app fb = Except.ok (app, fb) := by
  simp [recallScreen, hnull]

/-- C5 at the reader with no capture. -/
theorem recallScreen_no_capture_witness :
    (reader ScreenCapture.nullptr).screenCapture = ScreenCapture.nullptr ∧
    recallScreen sampleMxcfb id (reader ScreenCapture.nullptr) (panelOf 0)
      = Except.ok (reader ScreenCapture.nullptr, panelOf 0) :=
  ⟨rfl, recallScreen_no_capture sampleMxcfb id _ _ rfl⟩

/-- C6 fails: with a device that cannot be opened, or one that opens and cannot
be mapped, `saveScreen` does not return; it reads through the failed mapping. -/
theorem saveScreen_absent_device_faults :
    saveScreen id (reader ScreenCapture.nullptr) absentPanel
      = Except.error Fault.readFailedMapping ∧
    saveScreen id (reader ScreenCapture.nullptr) { panelOf 0 with maps := false }
      = Except.error Fault.readFailedMapping :=
  ⟨saveScreen_unavailable id _ _ rfl (Or.inl rfl), saveScreen_unavailable id _ _ rfl (Or.inr rfl)⟩

/-- C9 as stated fails: a capture that decompresses to exactly the panel size
brings no refresh when the device cannot be opened, or opens and cannot be
mapped: the copy writes through the failed mapping; and a capture that
decompresses to a single byte brings none either: the copy reads past it. -/
theorem recallScreen_no_refresh_without_device :
    (id (List.replicate DISPLAYSIZE (7 : UInt8))).length = DISPLAYSIZE ∧
    recallScreen sampleMxcfb id (reader (ScreenCapture.live (List.replicate DISPLAYSIZE 7)))
        absentPanel
      = Except.error Fault.writeFailedMapping ∧
    recallScreen sampleMxcfb id (reader (ScreenCapture.live (List.replicate DISPLAYSIZE 7)))
        { panelOf 0 with maps := false }
      = Except.error Fault.writeFailedMapping ∧
    (id ([1] : List UInt8)).length ≠ 0 ∧
    recallScreen sampleMxcfb id (reader (ScreenCapture.live [1])) (panelOf 0)
      = Except.error Fault.readPastBuffer := by
  have hlen7 : (id (List.replicate DISPLAYSIZE (7 : UInt8))).length = DISPLAYSIZE :=
    List.length_replicate _ _
  have hne7 : (id (List.replicate DISPLAYSIZE (7 : UInt8))).length ≠ 0 := by
    rw [hlen7]; exact Nat.pos_iff_ne_zero.mp DISPLAYSIZE_pos
  have hlt : (1 : Nat) + 1 < DISPLAYSIZE := by rw [DISPLAYSIZE_eq]; omega
  exact ⟨hlen7,
    recallScreen_unavailable sampleMxcfb id _ absentPanel _ rfl hne7 (Or.inl rfl),
    recallScreen_unavailable sampleMxcfb id _ { panelOf 0 with maps := false } _ rfl hne7
      (Or.inr rfl),
    Nat.succ_ne_zero 0,
    recallScreen_short sampleMxcfb id _ (panelOf 0) [1] rfl (Nat.succ_ne_zero 0) hlt rfl rfl
      (le_of_eq (panelOf_length 0).symm)⟩

/-- C9 amended: when the device opens and maps and the decompressed capture,
with its terminating NUL, covers the `DISPLAYSIZE` bytes copied,
`recallScreen` makes exactly the calls open, map, write, one refresh, close,
in this order, and the refresh carries the whole panel, the automatic
waveform, the full update mode, the maximal dither, temperature `0x0018` and
no flags, whatever the capture is. -/
theorem recallScreen_refresh (k : Mxcfb) (qUncompress : List UInt8 → List UInt8)
    (app : Application) (fb : Framebuffer) (data : List UInt8)
    (hlive : app.screenCapture = ScreenCapture.live data)
    (hsize : DISPLAYSIZE ≤ (qUncompress data).length + 1)
    (hopen : fb.opens = true) (hmap : fb.maps = true) (hlen : DISPLAYSIZE ≤ fb.mem.length) :
    ∃ app2 fb2, recallScreen k qUncompress app fb = Except.ok (app2, fb2) ∧
      fb2.calls = fb.calls ++
        [FbCall.open Handle.fd, FbCall.mmap Mapping.mapped, FbCall.write (1404 * 1872 * 2),
         FbCall.MXCFB_SEND_UPDATE
           { update_region := { top := 0, left := 0, width := 1404, height := 1872 },
             waveform_mode := k.WAVEFORM_MODE_AUTO,
             update_mode := k.UPDATE_MODE_FULL,
             update_marker := 0,
             temp := 0x0018,
             flags := 0,
             dither_mode := k.EPDC_FLAG_USE_DITHERING_MAX },
         FbCall.close Handle.fd] :=
  ⟨_, _, recallScreen_live k qUncompress app fb data hlive hsize hopen hmap hlen, rfl⟩

/-- C9 amended, at a capture of a panel of sevens. -/
theorem recallScreen_refresh_witness :
    ∃ app2 fb2, recallScreen sampleMxcfb id
        (reader (ScreenCapture.live (List.replicate DISPLAYSIZE 7))) (panelOf 0)
        = Except.ok (app2, fb2) ∧
      fb2.calls = (panelOf 0).calls ++
        [FbCall.open Handle.fd, FbCall.mmap Mapping.mapped, FbCall.write (1404 * 1872 * 2),
         FbCall.MXCFB_SEND_UPDATE
           { update_region := { top := 0, left := 0, width := 1404, height := 1872 },
             waveform_mode := sampleMxcfb.WAVEFORM_MODE_AUTO,
             update_mode := sampleMxcfb.UPDATE_MODE_FULL,
             update_marker := 0,
             temp := 0x0018,
             flags := 0,
             dither_mode := sampleMxcfb.EPDC_FLAG_USE_DITHERING_MAX },
         FbCall.close Handle.fd] :=
  recallScreen_refresh sampleMxcfb id _ (panelOf 0) (List.replicate DISPLAYSIZE 7) rfl
    (replicate_covers 7) rfl rfl (le_of_eq (panelOf_length 0).symm)

/-! ## The log relay: lemmas -/

/-- The split computes the spec's line splitting. -/
theorem splitSkipEmptyParts_eq (cs : List Char) : ∀ cur : List Char,
    splitSkipEmptyParts cs cur
      = (List.splitOnP.go isLineBreak cs cur.reverse).filter fun l => !l.isEmpty := by
  induction cs with
  | nil =>
    intro cur
    cases cur <;> simp [splitSkipEmptyParts, List.splitOnP.go]
  | cons c cs ih =>
    intro cur
    by_cases hc : isLineBreak c = true
    · cases cur with
      | nil => simp [splitSkipEmptyParts, List.splitOnP.go, hc, ih]
      | cons a as => simp [splitSkipEmptyParts, List.splitOnP.go, hc, ih]
    · simp [splitSkipEmptyParts, List.splitOnP.go, hc, ih]

theorem splitSkipEmptyParts_eq_maximalRuns (text : List Char) :
    splitSkipEmptyParts text [] = maximalRuns text := by
  rw [splitSkipEmptyParts_eq]
  rfl

theorem relayLines_priority (priority : Nat) (tag : CharPtr) (lines : List (List Char)) :
    ∀ c ∈ relayLines priority tag lines, c.priority = priority := by
  intro c hc
  unfold relayLines at hc
  rw [List.mem_filterMap] at hc
  obtain ⟨L, _, hL⟩ := hc
  split at hL
  · simp only [Option.some.injEq] at hL
    rw [← hL]
  · exact absurd hL (by simp)

theorem relayLines_tag (priority : Nat) (tag : CharPtr) (lines : List (List Char)) :
    ∀ c ∈ relayLines priority tag lines, c.a = tag := by
  intro c hc
  unfold relayLines at hc
  rw [List.mem_filterMap] at hc
  obtain ⟨L, _, hL⟩ := hc
  split at hL
  · simp only [Option.some.injEq] at hL
    rw [← hL]
  · exact absurd hL (by simp)

/-- A run of calls whose first argument points into a destroyed array ends at
its first call. -/
theorem journal_destroyed (written : List Char) (calls : List JournalCall)
    (hne : calls ≠ []) (htag : ∀ c ∈ calls, c.a = CharPtr.destroyed written) :
    journal calls = Except.error Fault.useAfterDelete := by
  cases calls with
  | nil => exact absurd rfl hne
  | cons c cs =>
    have hc := htag c (List.mem_cons_self _ _)
    simp [journal, sd_journal_print, hc, CharPtr.read]

theorem relayLines_b (priority : Nat) (tag : CharPtr) (lines : List (List Char)) :
    (relayLines priority tag lines).map (fun c => c.b)
      = (lines.filter fun l => !l.isEmpty).map CharPtr.live := by
  induction lines with
  | nil => rfl
  | cons L ls ih =>
    have hstep : relayLines priority tag (L :: ls)
        = if !L.isEmpty then
            { priority := priority, a := tag, b := CharPtr.live L } :: relayLines priority tag ls
          else relayLines priority tag ls := by
      unfold relayLines
      rw [List.filterMap_cons]
      cases L.isEmpty <;> rfl
    rw [hstep, List.filter_cons]
    cases L.isEmpty
    · simp only [Bool.not_false, if_true, List.map_cons, ih]
    · simpa using ih

/-- The lines both handlers hand to the journal are the maximal runs of the
text before its first NUL, in order. -/
theorem relay_line_arguments (app : Application) (buffered : List Char) :
    (readyReadStandardOutput app buffered).map (fun c => c.b)
      = (maximalRuns (cstr buffered)).map CharPtr.live ∧
    (readyReadStandardError app buffered).map (fun c => c.b)
      = (maximalRuns (cstr buffered)).map CharPtr.live := by
  have h : ∀ priority tag,
      (relayLines priority tag (splitSkipEmptyParts (QString_ofByteArray buffered) [])).map
          (fun c => c.b)
        = (maximalRuns (cstr buffered)).map CharPtr.live := by
    intro priority tag
    rw [relayLines_b, splitSkipEmptyParts_eq_maximalRuns]
    unfold maximalRuns QString_ofByteArray
    rw [List.filter_filter]
    simp
  exact ⟨h _ _, h _ _⟩

/-! ## The log relay: claims -/

/-- C7 fails: every line read from standard output is printed at `LOG_ERR`,
every line read from standard error at `LOG_INFO`; the two are exchanged. -/
theorem relay_priorities_exchanged :
    (∀ app buffered, ∀ c ∈ readyReadStandardOutput app buffered, c.priority = LOG_ERR) ∧
    (∀ app buffered, ∀ c ∈ readyReadStandardError app buffered, c.priority = LOG_INFO) ∧
    (readyReadStandardOutput (reader ScreenCapture.nullptr) ("hello".toList ++ [LF])).map
        (fun c => (c.priority, c.b))
      = [(LOG_ERR, CharPtr.live "hello".toList)] ∧
    (readyReadStandardError (reader ScreenCapture.nullptr) ("oops".toList ++ [LF])).map
        (fun c => (c.priority, c.b))
      = [(LOG_INFO, CharPtr.live "oops".toList)] ∧
    LOG_ERR ≠ LOG_INFO :=
  ⟨fun _ _ => relayLines_priority _ _ _, fun _ _ => relayLines_priority _ _ _,
   by decide, by decide, by decide⟩

/-- C8 fails: for the text `hello` LF both handlers make one journal call whose
tag argument points into the destroyed array that held `[Reader 42]`, so the
run of the call is undefined where the claim has the message
`[Reader 42] hello`; this holds for every application and every text with a
line to forward. Of the text `a`, NUL, `b`, LF, `c` only the line `a` is
handed on, where the runs of the text are `a` NUL `b` and `c`. -/
theorem relay_reads_destroyed_tag :
    readyReadStandardOutput (reader ScreenCapture.nullptr) ("hello".toList ++ [LF])
      = [{ priority := LOG_ERR, a := CharPtr.destroyed "[Reader 42]".toList,
           b := CharPtr.live "hello".toList }] ∧
    journal (readyReadStandardOutput (reader ScreenCapture.nullptr) ("hello".toList ++ [LF]))
      = Except.error Fault.useAfterDelete ∧
    journal (readyReadStandardError (reader ScreenCapture.nullptr) ("hello".toList ++ [LF]))
      = Except.error Fault.useAfterDelete ∧
    (maximalRuns ("hello".toList ++ [LF])).map (logLine (reader ScreenCapture.nullptr))
      = ["[Reader 42] hello".toList] ∧
    (∀ app buffered, readyReadStandardOutput app buffered ≠ [] →
      journal (readyReadStandardOutput app buffered) = Except.error Fault.useAfterDelete) ∧
    (∀ app buffered, readyReadStandardError app buffered ≠ [] →
      journal (readyReadStandardError app buffered) = Except.error Fault.useAfterDelete) ∧
    (readyReadStandardOutput (reader ScreenCapture.nullptr) ['a', NUL, 'b', LF, 'c']).map
        (fun c => c.b)
      = [CharPtr.live ['a']] ∧
    maximalRuns ['a', NUL, 'b', LF, 'c'] = [['a', NUL, 'b'], ['c']] :=
  ⟨by decide, rfl, rfl, by decide,
   fun app _ hne => journal_destroyed (logTag app) _ hne (relayLines_tag _ _ _),
   fun app _ hne => journal_destroyed (logTag app) _ hne (relayLines_tag _ _ _),
   by decide, by decide⟩

/-! ## The bus registration: claims -/

theorem objectRegisteredAt_unregisterObject (bus : Bus) (path : String) :
    (bus.unregisterObject path).objectRegisteredAt path = none := by
  unfold Bus.objectRegisteredAt Bus.unregisterObject
  rw [Option.map_eq_none', List.find?_eq_none]
  intro r hr
  have := (List.mem_filter.mp hr).2
  simpa using this

/-- C10: after `unregisterPath` nothing is registered at the path of the
application; the process handle, the backgrounded flag and the capture are as
before; a second call right after changes neither the bus nor the application
and calls `unregisterObject` no more. -/
theorem unregisterPath_idempotent (app : Application) (bus : Bus) :
    (unregisterPath app bus).2.objectRegisteredAt app.m_path = none ∧
    (unregisterPath app bus).1.m_process = app.m_process ∧
    (unregisterPath app bus).1.m_backgrounded = app.m_backgrounded ∧
    (unregisterPath app bus).1.screenCapture = app.screenCapture ∧
    unregisterPath (unregisterPath app bus).1 (unregisterPath app bus).2
      = unregisterPath app bus ∧
    (unregisterPath (unregisterPath app bus).1 (unregisterPath app bus).2).2.unregisterCalls
      = (unregisterPath app bus).2.unregisterCalls := by
  have happ : (unregisterPath app bus).1 = app := by
    unfold unregisterPath; split <;> rfl
  have hnone : (unregisterPath app bus).2.objectRegisteredAt app.m_path = none := by
    unfold unregisterPath
    split
    · exact objectRegisteredAt_unregisterObject bus app.m_path
    · rename_i h
      simpa using h
  have htwice : unregisterPath (unregisterPath app bus).1 (unregisterPath app bus).2
      = unregisterPath app bus := by
    have key : ∀ b2 : Bus, b2.objectRegisteredAt app.m_path = none →
        unregisterPath app b2 = (app, b2) := by
      intro b2 h
      simp [unregisterPath, h]
    rw [happ, key _ hnone]
    exact Prod.ext happ.symm rfl
  exact ⟨hnone, by rw [happ], by rw [happ], by rw [happ], htwice, by rw [htwice]⟩

end Oxide
